import Mathlib

/-!
Verification development for the Complaint Deduplication Engine
(backend-database-service: duplicate_checker.py and mongo_operations.py).

The Python code is shallowly embedded: strings are Lean `String`/`List Char`
(ASCII fragment of Python's `str.lower`, `\s`, `\w` semantics), floats are
exact rationals `ℚ`, datetimes are integers (`ℤ`), MongoDB documents are a
fixed-field structure, and the collection is modelled either as an abstract
oracle (queries may fail, for fail-open claims) or as an in-memory list with
honest query semantics.
-/

set_option maxRecDepth 200000

namespace Dedup

/-- ASCII whitespace, as matched by the regex class `\s` on ASCII text. -/
def isSpaceChar (c : Char) : Bool :=
  c = ' ' || c = '\t' || c = '\n' || c = '\r' || c = '\x0b' || c = '\x0c'

/-- ASCII word character, as matched by the regex class `\w` on ASCII text;
`\b` is a transition between a word and a non-word character. -/
def isWordChar (c : Char) : Bool :=
  c.isAlphanum || c = '_'

theorem length_dropWhile_le {α : Type} (p : α → Bool) (l : List α) :
    (l.dropWhile p).length ≤ l.length := by
  induction l with
  | nil => simp [List.dropWhile]
  | cons c cs ih =>
    simp only [List.dropWhile]
    split
    · simp only [List.length_cons]; omega
    · simp

/-- `re.sub(r"\s+", " ", text)`: collapse each run of whitespace to one space. -/
def collapseWs : List Char → List Char
  | [] => []
  | c :: cs =>
    if isSpaceChar c then ' ' :: collapseWs (cs.dropWhile fun d => isSpaceChar d)
    else c :: collapseWs cs
termination_by l => l.length
decreasing_by
  · simp only [List.length_cons]
    have := length_dropWhile_le (fun d => isSpaceChar d) cs
    omega
  · simp

/-- `str.strip()` (ASCII whitespace fragment). -/
def stripWs (l : List Char) : List Char :=
  ((l.dropWhile fun c => isSpaceChar c).reverse.dropWhile fun c => isSpaceChar c).reverse

/-- Match a literal pattern at the head of the input; return the rest. -/
def litMatch : List Char → List Char → Option (List Char)
  | [], cs => some cs
  | _ :: _, [] => none
  | p :: ps, c :: cs => if c = p then litMatch ps cs else none

/-- `\b` just after a match: next char is non-word, or end of input.
(All noise alternatives end in a word character.) -/
def boundaryAfter : List Char → Bool
  | [] => true
  | c :: _ => !isWordChar c

/-- One literal alternative followed by `\b`. -/
def litB (p : List Char) (cs : List Char) : Option (List Char) :=
  (litMatch p cs).bind fun rest => if boundaryAfter rest then some rest else none

/-- The optional-`s`-then-boundary tail shared by `thanks?` and `regards?`.
Greedy: the `s` branch is tried first; backtracking to the empty branch after
a failed boundary always fails too, since `s` is a word character. -/
def sOpt (rest : List Char) : Option (List Char) :=
  match litMatch ['s'] rest with
  | some r2 => if boundaryAfter r2 then some r2 else none
  | none => if boundaryAfter rest then some rest else none

/-- An alternative of the form `stem` + `s?` (greedy) + `\b`. -/
def stemS (stem : List Char) (cs : List Char) : Option (List Char) :=
  (litMatch stem cs).bind sOpt

/-- The alternation `please|thanks?|thank you|hi|hello|dear|regards?` tried at
the current position, leftmost alternative first (Python `re` semantics);
returns the suffix after the matched text.  The caller checks the `\b` on the
left (all alternatives start with a word character). -/
def matchNoise (cs : List Char) : Option (List Char) :=
  litB "please".data cs <|>
  stemS "thank".data cs <|>
  litB "thank you".data cs <|>
  litB "hi".data cs <|>
  litB "hello".data cs <|>
  litB "dear".data cs <|>
  stemS "regard".data cs

theorem litMatch_length {p cs rest : List Char} (h : litMatch p cs = some rest) :
    cs.length = p.length + rest.length := by
  induction p generalizing cs with
  | nil => simp [litMatch] at h; simp [← h]
  | cons q qs ih =>
    cases cs with
    | nil => simp [litMatch] at h
    | cons c cs' =>
      simp only [litMatch] at h
      split at h
      · have := ih h
        simp [List.length_cons, this]
        omega
      · exact absurd h (by simp)

theorem litB_length {p cs rest : List Char} (hp : p ≠ []) (h : litB p cs = some rest) :
    rest.length < cs.length := by
  unfold litB at h
  cases hm : litMatch p cs with
  | none => rw [hm] at h; exact absurd h (by simp)
  | some r =>
    rw [hm] at h
    simp only [Option.some_bind] at h
    by_cases hb : boundaryAfter r = true
    · rw [if_pos hb] at h
      cases h
      have := litMatch_length hm
      cases p with
      | nil => exact absurd rfl hp
      | cons _ _ => simp only [List.length_cons] at this; omega
    · rw [if_neg hb] at h; exact absurd h (by simp)

theorem sOpt_length {r rest : List Char} (h : sOpt r = some rest) :
    rest.length ≤ r.length := by
  unfold sOpt at h
  cases hs : litMatch ['s'] r with
  | some r2 =>
    rw [hs] at h
    simp only at h
    have := litMatch_length hs
    by_cases hb : boundaryAfter r2 = true
    · rw [if_pos hb] at h; cases h; simp at this; omega
    · rw [if_neg hb] at h; exact absurd h (by simp)
  | none =>
    rw [hs] at h
    simp only at h
    by_cases hb : boundaryAfter r = true
    · rw [if_pos hb] at h; cases h; omega
    · rw [if_neg hb] at h; exact absurd h (by simp)

theorem stemS_length {p cs rest : List Char} (hp : p ≠ []) (h : stemS p cs = some rest) :
    rest.length < cs.length := by
  unfold stemS at h
  cases hm : litMatch p cs with
  | none => rw [hm] at h; exact absurd h (by simp)
  | some r =>
    rw [hm] at h
    simp only [Option.some_bind] at h
    have h1 := sOpt_length h
    have h2 := litMatch_length hm
    have : 1 ≤ p.length := by
      cases p with
      | nil => exact absurd rfl hp
      | cons _ _ => simp
    omega

theorem matchNoise_length {cs rest : List Char} (h : matchNoise cs = some rest) :
    rest.length < cs.length := by
  unfold matchNoise at h
  rcases h1 : litB "please".data cs with _ | r1
  · rw [h1] at h; simp only [Option.none_orElse] at h
    rcases h2 : stemS "thank".data cs with _ | r2
    · rw [h2] at h; simp only [Option.none_orElse] at h
      rcases h3 : litB "thank you".data cs with _ | r3
      · rw [h3] at h; simp only [Option.none_orElse] at h
        rcases h4 : litB "hi".data cs with _ | r4
        · rw [h4] at h; simp only [Option.none_orElse] at h
          rcases h5 : litB "hello".data cs with _ | r5
          · rw [h5] at h; simp only [Option.none_orElse] at h
            rcases h6 : litB "dear".data cs with _ | r6
            · rw [h6] at h; simp only [Option.none_orElse] at h
              exact stemS_length (by decide) h
            · rw [h6] at h; simp only [Option.some_orElse] at h
              cases h
              exact litB_length (by decide) h6
          · rw [h5] at h; simp only [Option.some_orElse] at h
            cases h
            exact litB_length (by decide) h5
        · rw [h4] at h; simp only [Option.some_orElse] at h
          cases h
          exact litB_length (by decide) h4
      · rw [h3] at h; simp only [Option.some_orElse] at h
        cases h
        exact litB_length (by decide) h3
    · rw [h2] at h; simp only [Option.some_orElse] at h
      cases h
      exact stemS_length (by decide) h2
  · rw [h1] at h; simp only [Option.some_orElse] at h
    cases h
    exact litB_length (by decide) h1

/-- The body of `re.sub(noise_pattern, " ", text)`: scan left to right; at a
position whose previous character is not a word character (the left `\b`), try
the alternation; on a match emit a single space and resume after the matched
text (whose last character is always a word character); otherwise copy the
character. -/
def noiseSub : List Char → Bool → List Char
  | [], _ => []
  | c :: cs, prevWord =>
    if prevWord then c :: noiseSub cs (isWordChar c)
    else
      match h : matchNoise (c :: cs) with
      | some rest => ' ' :: noiseSub rest true
      | none => c :: noiseSub cs (isWordChar c)
termination_by l _ => l.length
decreasing_by
  · simp
  · exact matchNoise_length h
  · simp

/-- `DuplicateChecker._normalize_text` on a non-empty string:
lowercase, collapse whitespace and strip, remove noise words, collapse and
strip again. -/
def normalizeChars (l : List Char) : List Char :=
  stripWs (collapseWs (noiseSub (stripWs (collapseWs (l.map Char.toLower))) false))

/-- `DuplicateChecker._normalize_text` (`None` is the Python `None`;
`if not text: return ""` also catches the empty string). -/
def normalizeText : Option String → String
  | none => ""
  | some s => if s.data = [] then "" else String.mk (normalizeChars s.data)

/-- Normalization applied to a plain string (the call sites always pass a
string, possibly empty). -/
def normStr (s : String) : String := normalizeText (some s)

/-! ### `difflib.SequenceMatcher` (isjunk = None)

`ratio()` is embedded exactly: `b2j` with the autojunk purge of popular
elements, `find_longest_match` with its strict `k > bestsize` tie-break and
the two non-junk extension passes (with `isjunk = None` the junk set is empty,
so the junk extension passes never fire), and the queue-driven
`get_matching_blocks`, of which only the total matched size feeds `ratio`. -/

/-- Ascending positions of `c` in `b` (one bucket of difflib's `b2j`). -/
def posOf (b : List Char) (c : Char) : List Nat :=
  (List.range b.length).filter fun j => b.getD j ' ' = c

/-- Autojunk: for `len(b) ≥ 200`, elements occurring more than
`len(b) // 100 + 1` times are purged from `b2j`. -/
def isPopular (b : List Char) (c : Char) : Bool :=
  b.length ≥ 200 && b.count c > b.length / 100 + 1

/-- difflib's `b2j.get(a[i], [])` after the autojunk purge. -/
def b2j (b : List Char) (c : Char) : List Nat :=
  if isPopular b c then [] else posOf b c

/-- `dict.get(k, 0)` on an association list. -/
def lookupD (m : List (Nat × Nat)) (k : Nat) : Nat :=
  match m.find? fun p => p.1 == k with
  | some p => p.2
  | none => 0

/-- Running best match of `find_longest_match`. -/
structure FLMState where
  besti : Nat
  bestj : Nat
  bestsize : Nat
deriving Repr, DecidableEq

/-- The inner `for j in b2j.get(a[i], nothing)` loop: `continue` below `blo`,
`break` at `bhi`, extend the run ending at `(i, j)` and update the best on a
strict improvement (`k > bestsize`). -/
def flmInner (i blo bhi : Nat) (j2len : List (Nat × Nat)) :
    List Nat → FLMState → List (Nat × Nat) → FLMState × List (Nat × Nat)
  | [], st, acc => (st, acc)
  | j :: js, st, acc =>
    if j < blo then flmInner i blo bhi j2len js st acc
    else if bhi ≤ j then (st, acc)
    else
      let k := (if j = 0 then 0 else lookupD j2len (j - 1)) + 1
      let st' := if k > st.bestsize then ⟨i + 1 - k, j + 1 - k, k⟩ else st
      flmInner i blo bhi j2len js st' ((j, k) :: acc)

/-- The outer `for i in range(alo, ahi)` loop of `find_longest_match`;
`n` is the number of iterations left. -/
def flmOuter (a b : List Char) (blo bhi : Nat) :
    Nat → Nat → List (Nat × Nat) → FLMState → FLMState
  | _, 0, _, st => st
  | i, n + 1, j2len, st =>
    let (st', new) := flmInner i blo bhi j2len (b2j b (a.getD i ' ')) st []
    flmOuter a b blo bhi (i + 1) n new st'

/-- Extend the best match by equal elements on the left (the junk set is
empty, so `not isbjunk(...)` is vacuously true). -/
def extendLeft (a b : List Char) (alo blo : Nat) (besti bestj bestsize : Nat) :
    Nat × Nat × Nat :=
  if alo < besti ∧ blo < bestj ∧ a.getD (besti - 1) ' ' = b.getD (bestj - 1) ' ' then
    extendLeft a b alo blo (besti - 1) (bestj - 1) (bestsize + 1)
  else
    (besti, bestj, bestsize)
termination_by besti
decreasing_by omega

/-- Extend the best match by equal elements on the right. -/
def extendRight (a b : List Char) (ahi bhi : Nat) (besti bestj bestsize : Nat) : Nat :=
  if besti + bestsize < ahi ∧ bestj + bestsize < bhi ∧
      a.getD (besti + bestsize) ' ' = b.getD (bestj + bestsize) ' ' then
    extendRight a b ahi bhi besti bestj (bestsize + 1)
  else
    bestsize
termination_by ahi - (besti + bestsize)
decreasing_by omega

/-- `find_longest_match(alo, ahi, blo, bhi)` with `isjunk = None`. -/
def findLongestMatch (a b : List Char) (alo ahi blo bhi : Nat) : Nat × Nat × Nat :=
  let st := flmOuter a b blo bhi alo (ahi - alo) [] ⟨alo, blo, 0⟩
  let (bi, bj, bs) := extendLeft a b alo blo st.besti st.bestj st.bestsize
  (bi, bj, extendRight a b ahi bhi bi bj bs)

/-- The queue-driven loop of `get_matching_blocks`, accumulating only the total
matched size (all `ratio` uses).  The queue is LIFO: the right subregion is
pushed after the left one, hence popped first.  Every pop strictly decreases
`Σ (ahi - alo) + (bhi - blo) + 1` over the queue, which starts at
`len(a) + len(b) + 1`, so that much fuel never runs out. -/
def matchesAux (a b : List Char) : Nat → List (Nat × Nat × Nat × Nat) → Nat → Nat
  | 0, _, acc => acc
  | _ + 1, [], acc => acc
  | fuel + 1, (alo, ahi, blo, bhi) :: queue, acc =>
    let (i, j, k) := findLongestMatch a b alo ahi blo bhi
    if k = 0 then matchesAux a b fuel queue acc
    else
      let q2 := if i + k < ahi ∧ j + k < bhi then [(i + k, ahi, j + k, bhi)] else []
      let q1 := if alo < i ∧ blo < j then [(alo, i, blo, j)] else []
      matchesAux a b fuel (q2 ++ q1 ++ queue) (acc + k)

/-- Total size of all matching blocks (`sum(triple[-1] ...)` in `ratio`). -/
def totalMatches (a b : List Char) : Nat :=
  matchesAux a b (a.length + b.length + 1) [(0, a.length, 0, b.length)] 0

/-- `SequenceMatcher(None, a, b).ratio()`, as an exact rational:
`2M / (len(a) + len(b))`, and `1.0` when both are empty. -/
def ratioQ (a b : List Char) : ℚ :=
  if a.length + b.length = 0 then 1
  else 2 * (totalMatches a b : ℚ) / ((a.length : ℚ) + (b.length : ℚ))

/-! ### `hashlib.md5` over UTF-8 bytes

Bytes are `Nat < 256`, 32-bit words are `Nat` reduced mod `2^32`. -/

/-- Reduce to a 32-bit word. -/
def u32 (n : Nat) : Nat := n % 4294967296

/-- 32-bit bitwise complement (inputs are < 2^32). -/
def mnot (x : Nat) : Nat := Nat.xor (u32 x) 4294967295

/-- 32-bit left-rotate by `s` (for `x < 2^32`, `0 < s < 32`). -/
def rotl (x s : Nat) : Nat :=
  Nat.lor (u32 (x * 2 ^ s)) (u32 x / 2 ^ (32 - s))

def mdF (b c d : Nat) : Nat := Nat.lor (Nat.land b c) (Nat.land (mnot b) d)

def mdG (b c d : Nat) : Nat := Nat.lor (Nat.land d b) (Nat.land (mnot d) c)

def mdH (b c d : Nat) : Nat := Nat.xor b (Nat.xor c d)

def mdI (b c d : Nat) : Nat := Nat.xor c (Nat.lor b (mnot d))

/-- The MD5 sine table `⌊|sin(i+1)|·2^32⌋`. -/
def md5K : List Nat := [
  3614090360, 3905402710, 606105819, 3250441966, 4118548399, 1200080426, 2821735955, 4249261313,
  1770035416, 2336552879, 4294925233, 2304563134, 1804603682, 4254626195, 2792965006, 1236535329,
  4129170786, 3225465664, 643717713, 3921069994, 3593408605, 38016083, 3634488961, 3889429448,
  568446438, 3275163606, 4107603335, 1163531501, 2850285829, 4243563512, 1735328473, 2368359562,
  4294588738, 2272392833, 1839030562, 4259657740, 2763975236, 1272893353, 4139469664, 3200236656,
  681279174, 3936430074, 3572445317, 76029189, 3654602809, 3873151461, 530742520, 3299628645,
  4096336452, 1126891415, 2878612391, 4237533241, 1700485571, 2399980690, 4293915773, 2240044497,
  1873313359, 4264355552, 2734768916, 1309151649, 4149444226, 3174756917, 718787259, 3951481745]

/-- The MD5 per-round left-rotate amounts. -/
def md5S : List Nat := [
  7, 12, 17, 22, 7, 12, 17, 22, 7, 12, 17, 22, 7, 12, 17, 22,
  5, 9, 14, 20, 5, 9, 14, 20, 5, 9, 14, 20, 5, 9, 14, 20,
  4, 11, 16, 23, 4, 11, 16, 23, 4, 11, 16, 23, 4, 11, 16, 23,
  6, 10, 15, 21, 6, 10, 15, 21, 6, 10, 15, 21, 6, 10, 15, 21]

/-- Little-endian decomposition of `n` into `count` bytes. -/
def leBytes (n count : Nat) : List Nat :=
  (List.range count).map fun i => n / 256 ^ i % 256

/-- The 16 little-endian 32-bit words of a 64-byte chunk. -/
def words16 (chunk : List Nat) : List Nat :=
  (List.range 16).map fun j =>
    chunk.getD (4 * j) 0 + 256 * chunk.getD (4 * j + 1) 0 +
      65536 * chunk.getD (4 * j + 2) 0 + 16777216 * chunk.getD (4 * j + 3) 0

/-- One MD5 round `i` on state `(a, b, c, d)` with message words `m`. -/
def md5Round (m : List Nat) (i : Nat) : Nat × Nat × Nat × Nat → Nat × Nat × Nat × Nat
  | (a, b, c, d) =>
    let fg : Nat × Nat :=
      if i < 16 then (mdF b c d, i)
      else if i < 32 then (mdG b c d, (5 * i + 1) % 16)
      else if i < 48 then (mdH b c d, (3 * i + 5) % 16)
      else (mdI b c d, (7 * i) % 16)
    let f := u32 (fg.1 + a + md5K.getD i 0 + m.getD fg.2 0)
    (d, u32 (b + rotl f (md5S.getD i 0)), b, c)

/-- Process one 64-byte chunk. -/
def md5Chunk (st : Nat × Nat × Nat × Nat) (chunk : List Nat) : Nat × Nat × Nat × Nat :=
  let m := words16 chunk
  let r := (List.range 64).foldl (fun s i => md5Round m i s) st
  (u32 (st.1 + r.1), u32 (st.2.1 + r.2.1), u32 (st.2.2.1 + r.2.2.1), u32 (st.2.2.2 + r.2.2.2))

/-- Split into 64-byte chunks (`fuel` bounds the number of chunks). -/
def chunks64 : Nat → List Nat → List (List Nat)
  | 0, _ => []
  | fuel + 1, bs =>
    match bs with
    | [] => []
    | _ => bs.take 64 :: chunks64 fuel (bs.drop 64)

/-- MD5 padding: `0x80`, zeros to 56 mod 64, then the bit length as 8
little-endian bytes. -/
def md5Pad (msg : List Nat) : List Nat :=
  msg ++ [128] ++ List.replicate ((119 - msg.length % 64) % 64) 0 ++
    leBytes (8 * msg.length % 18446744073709551616) 8

/-- The 16-byte MD5 digest of a byte string. -/
def md5Bytes (msg : List Nat) : List Nat :=
  let padded := md5Pad msg
  let r := (chunks64 (padded.length / 64 + 1) padded).foldl md5Chunk
    (1732584193, 4023233417, 2562383102, 271733878)
  leBytes r.1 4 ++ leBytes r.2.1 4 ++ leBytes r.2.2.1 4 ++ leBytes r.2.2.2 4

/-- Lowercase hex digit. -/
def hexDigitChar (n : Nat) : Char :=
  "0123456789abcdef".data.getD n '0'

/-- Two lowercase hex digits of a byte. -/
def byteHex (b : Nat) : List Char :=
  [hexDigitChar (b / 16 % 16), hexDigitChar (b % 16)]

/-- UTF-8 encoding of one character. -/
def encodeChar (c : Char) : List Nat :=
  let n := c.toNat
  if n < 128 then [n]
  else if n < 2048 then [192 + n / 64, 128 + n % 64]
  else if n < 65536 then [224 + n / 4096, 128 + n / 64 % 64, 128 + n % 64]
  else [240 + n / 262144, 128 + n / 4096 % 64, 128 + n / 64 % 64, 128 + n % 64]

/-- UTF-8 bytes of a string (`str.encode("utf-8")`). -/
def utf8Bytes (s : String) : List Nat :=
  (s.data.map encodeChar).flatten

/-- `hashlib.md5(s.encode("utf-8")).hexdigest()`. -/
def md5Hex (s : String) : String :=
  String.mk ((md5Bytes (utf8Bytes s)).map byteHex).flatten

/-- `s.lower().strip()`. -/
def lowerStrip (s : String) : String :=
  String.mk (stripWs (s.data.map Char.toLower))

/-! ### Data model

One entry of a complaint's `processingHistory`.  The `details` sub-dict is
flattened into optional fields (only the keys this engine ever writes). -/

structure HistEntry where
  action : String
  timestamp : Int
  userId : String
  detailSource : Option String := none
  detailIsDuplicate : Option Bool := none
  detailOriginalComplaintId : Option String := none
  detailDuplicateComplaintId : Option String := none
  detailFieldsUpdated : Option (List String) := none
deriving DecidableEq, Repr

/-- A complaint document.  Text fields the checker reads through
`.get(k, "")` are plain strings (a missing key reads as `""`); `category`
is `.get("category")`, i.e. `None` when missing; `isDuplicate` is `none`
when the flag is absent.  Dates are integers. -/
structure Doc where
  id : String := ""
  customerEmail : String := ""
  subject : String := ""
  description : String := ""
  category : Option String := none
  status : String := "new"
  createdDate : Int := 0
  lastUpdated : Int := 0
  contentHash : String := ""
  isDuplicate : Option Bool := none
  originalComplaintId : Option String := none
  relatedComplaints : List String := []
  processingHistory : List HistEntry := []
deriving DecidableEq, Repr

/-- `DuplicateChecker.__init__` configuration. -/
structure CheckerConfig where
  similarityThreshold : ℚ := 0.85
  timeWindowDays : Int := 7
deriving Repr

/-- The slice of the Motor collection interface the checker uses.  Queries are
evaluated against document predicates; every access may fail (modelling any
store/network exception), which is what the fail-open claims quantify over. -/
structure Collection where
  findOne : (Doc → Bool) → Except String (Option Doc)
  findSorted : (Doc → Bool) → Except String (List Doc)

/-! ### `DuplicateChecker` -/

/-- `DuplicateChecker._generate_content_hash`. -/
def generateContentHash (c : Doc) : String :=
  md5Hex (lowerStrip c.customerEmail ++ "|" ++ lowerStrip c.subject ++ "|" ++
    normStr c.description)

/-- `DuplicateChecker._calculate_text_similarity`. -/
def calcTextSimilarity (c1 c2 : Doc) : ℚ :=
  let t1 := normStr (c1.subject ++ " " ++ c1.description)
  let t2 := normStr (c2.subject ++ " " ++ c2.description)
  let sim := ratioQ t1.data t2.data
  if lowerStrip c1.subject = lowerStrip c2.subject then min 1 (sim + 0.1) else sim

/-- The filter of `_check_exact_duplicate`'s `find_one` call. -/
def exactQueryPred (cfg : CheckerConfig) (now : Int) (c : Doc) (hash : String)
    (r : Doc) : Bool :=
  r.customerEmail == c.customerEmail && r.contentHash == hash &&
    decide (now - cfg.timeWindowDays ≤ r.createdDate)

/-- The filter of `_check_similar_duplicate`'s `find` call: same customer,
same category, within the window, and duplicate flag absent or false. -/
def similarQueryPred (cfg : CheckerConfig) (now : Int) (c : Doc) (r : Doc) : Bool :=
  r.customerEmail == c.customerEmail && r.category == c.category &&
    decide (now - cfg.timeWindowDays ≤ r.createdDate) &&
    (r.isDuplicate == none || r.isDuplicate == some false)

/-- `DuplicateChecker._check_exact_duplicate`. -/
def checkExactDuplicate (cfg : CheckerConfig) (col : Collection) (now : Int)
    (c : Doc) : Except String (Option String) := do
  let existing ← col.findOne (exactQueryPred cfg now c (generateContentHash c))
  pure (existing.map fun r => r.id)

/-- The `for candidate in candidates` loop of `_check_similar_duplicate`;
also counts how many times `_calculate_text_similarity` is invoked. -/
def similarLoop (cfg : CheckerConfig) (c : Doc) : List Doc → Option String × Nat
  | [] => (none, 0)
  | cand :: rest =>
    if cfg.similarityThreshold ≤ calcTextSimilarity c cand then (some cand.id, 1)
    else
      let r := similarLoop cfg c rest
      (r.1, r.2 + 1)

/-- `DuplicateChecker._check_similar_duplicate` (paired with the similarity
invocation count). -/
def checkSimilarDuplicate (cfg : CheckerConfig) (col : Collection) (now : Int)
    (c : Doc) : Except String (Option String × Nat) := do
  let cands ← col.findSorted (similarQueryPred cfg now c)
  pure (similarLoop cfg c cands)

/-- The `try` body of `DuplicateChecker.check_duplicate`: exact check first,
short-circuiting the similar check.  The second component counts similarity
invocations (every similarity call happens after the last store access, so an
error implies zero calls). -/
def checkDuplicateE (cfg : CheckerConfig) (col : Collection) (now : Int)
    (c : Doc) : Except String (Option String × Nat) := do
  match ← checkExactDuplicate cfg col now c with
  | some oid => pure (some oid, 0)
  | none => checkSimilarDuplicate cfg col now c

/-- `DuplicateChecker.check_duplicate`: any exception is caught and turned
into `None`. -/
def checkDuplicate (cfg : CheckerConfig) (col : Collection) (now : Int)
    (c : Doc) : Option String :=
  match checkDuplicateE cfg col now c with
  | .ok r => r.1
  | .error _ => none

/-- Number of `_calculate_text_similarity` invocations a `check_duplicate`
call performs. -/
def simCallCount (cfg : CheckerConfig) (col : Collection) (now : Int)
    (c : Doc) : Nat :=
  match checkDuplicateE cfg col now c with
  | .ok r => r.2
  | .error _ => 0

/-! ### An in-memory collection with honest query semantics -/

/-- Stable insertion for descending sort on `createdDate`. -/
def insertDesc (x : Doc) : List Doc → List Doc
  | [] => [x]
  | y :: ys => if y.createdDate < x.createdDate then x :: y :: ys else y :: insertDesc x ys

/-- `.sort("createdDate", -1)`: newest first (stable; MongoDB leaves tie
order unspecified, this model keeps insertion order among ties). -/
def sortByCreatedDesc (l : List Doc) : List Doc :=
  l.foldl (fun acc x => insertDesc x acc) []

/-- A list-backed collection: `find_one` returns the first match in natural
(insertion) order; `find(...).sort("createdDate", -1).limit(10)` filters,
sorts newest-first and takes 10.  Accesses never fail. -/
def listCollection (store : List Doc) : Collection where
  findOne p := .ok (store.find? p)
  findSorted p := .ok ((sortByCreatedDesc (store.filter p)).take 10)

/-! ### `MongoOperations` write path -/

/-- MongoDB `$addToSet`: append if absent, no-op if present. -/
def addToSet (l : List String) (x : String) : List String :=
  if x ∈ l then l else l ++ [x]

/-- `update_one` against a list store: rewrite the first document matching the
filter. -/
def updateFirst (p : Doc → Bool) (f : Doc → Doc) : List Doc → List Doc
  | [] => []
  | x :: xs => if p x then f x :: xs else x :: updateFirst p f xs

/-- The `duplicate_linked` history entry `$push`-ed onto the original. -/
def dupLinkedEntry (dupId : String) (now : Int) : HistEntry :=
  { action := "duplicate_linked", timestamp := now, userId := "system",
    detailDuplicateComplaintId := some dupId }

/-- `MongoOperations._link_duplicate_complaints`: one atomic `update_one` on
the original with `$addToSet relatedComplaints`, `$set lastUpdated` and
`$push processingHistory`. -/
def linkDuplicateComplaints (store : List Doc) (origId dupId : String)
    (now : Int) : List Doc :=
  updateFirst (fun r => r.id == origId)
    (fun r =>
      { r with
        relatedComplaints := addToSet r.relatedComplaints dupId
        lastUpdated := now
        processingHistory := r.processingHistory ++ [dupLinkedEntry dupId now] })
    store

/-- The `created` history entry of `create_complaint`
(`originalComplaintId` is added to the details only for duplicates). -/
def createdEntry (isDup : Bool) (origId : Option String) (now : Int) : HistEntry :=
  { action := "created", timestamp := now, userId := "system",
    detailSource := some "email-service", detailIsDuplicate := some isDup,
    detailOriginalComplaintId := if isDup then origId else none }

/-- The document `create_complaint` inserts: the resolver's verdict recorded
in the dedup fields (`status` overridden to `"duplicate"` for a duplicate),
the `created` history entry appended, and the store-assigned id. -/
def insertedDoc (c1 : Doc) (origId : Option String) (newId : String)
    (now : Int) : Doc :=
  let c2 :=
    match origId with
    | some oid =>
      { c1 with isDuplicate := some true, originalComplaintId := some oid,
                status := "duplicate" }
    | none => { c1 with isDuplicate := some false, originalComplaintId := none }
  { c2 with
    id := newId
    processingHistory := c2.processingHistory ++ [createdEntry origId.isSome origId now] }

/-- `MongoOperations.create_complaint` against a list store: compute the
fingerprint, resolve duplicates, insert the new document (the store assigns
`newId`), and finally link the original if one was found.  All
`datetime.utcnow()` calls inside one creation are modelled as one instant
`now`.  Returns the new id and the resulting store. -/
def createComplaint (cfg : CheckerConfig) (store : List Doc) (c : Doc)
    (newId : String) (now : Int) : String × List Doc :=
  let c1 := { c with contentHash := generateContentHash c }
  let origId := checkDuplicate cfg (listCollection store) now c1
  let store1 := store ++ [insertedDoc c1 origId newId now]
  match origId with
  | some oid => (newId, linkDuplicateComplaints store1 oid newId now)
  | none => (newId, store1)

/-! ### `MongoOperations.get_duplicate_stats` -/

/-- Banker's rounding of a rational to the nearest integer
(Python `round` on an exactly-representable value). -/
def roundHalfEven (q : ℚ) : Int :=
  let f := ⌊q⌋
  if q - f < 1 / 2 then f
  else if 1 / 2 < q - f then f + 1
  else if f % 2 = 0 then f else f + 1

/-- Python `round(x, 2)` (on exact rationals). -/
def round2 (q : ℚ) : ℚ :=
  (roundHalfEven (q * 100) : ℚ) / 100

/-- Stable insertion for descending sort on the count component. -/
def insCountDesc (x : String × Nat) : List (String × Nat) → List (String × Nat)
  | [] => [x]
  | y :: ys => if y.2 < x.2 then x :: y :: ys else y :: insCountDesc x ys

/-- The `duplicates_by_customer` facet: duplicates grouped by customer email,
counted, sorted by count descending (tie order unspecified in MongoDB; this
model keeps first-occurrence order), limited to 10. -/
def topDuplicateCustomers (store : List Doc) : List (String × Nat) :=
  let dups := store.filter fun r => r.isDuplicate == some true
  let emails := (dups.map fun r => r.customerEmail).eraseDups
  let counts := emails.map fun e =>
    (e, (dups.filter fun r => r.customerEmail == e).length)
  ((counts.foldl (fun acc x => insCountDesc x acc) []).take 10)

/-- The aggregate report of `MongoOperations.get_duplicate_stats`. -/
structure DupStats where
  totalComplaints : Nat
  duplicates : Nat
  uniqueComplaints : Nat
  duplicateRate : ℚ
  topCustomers : List (String × Nat)
  thresholdSetting : ℚ
  windowSetting : Int
deriving Repr

/-- `MongoOperations.get_duplicate_stats` against a list store: the `$facet`
pipeline yields the total count, the per-`isDuplicate` group counts (of which
the code reads the `True` and `False` buckets), and the per-customer top list;
the rate divides only when the total is positive. -/
def getDuplicateStats (cfg : CheckerConfig) (store : List Doc) : DupStats :=
  let total := store.length
  let dups := (store.filter fun r => r.isDuplicate == some true).length
  let uniqs := (store.filter fun r => r.isDuplicate == some false).length
  { totalComplaints := total
    duplicates := dups
    uniqueComplaints := uniqs
    duplicateRate := if 0 < total then round2 ((dups : ℚ) / (total : ℚ) * 100) else 0
    topCustomers := topDuplicateCustomers store
    thresholdSetting := cfg.similarityThreshold
    windowSetting := cfg.timeWindowDays }

/-! ### `MongoOperations.update_complaint` / `get_complaint_by_id` -/

/-- `bson.ObjectId.is_valid` for strings: 24 hexadecimal characters.
(`bytes.fromhex`'s tolerance of interior ASCII whitespace is not modelled.) -/
def isValidObjectId (s : String) : Bool :=
  s.length == 24 && s.data.all fun c =>
    c.isDigit || ('a' ≤ c && c ≤ 'f') || ('A' ≤ c && c ≤ 'F')

/-- `MongoOperations.get_complaint_by_id`: `None` for an invalid id without
touching the store, otherwise a point lookup. -/
def getComplaintById (store : List Doc) (cid : String) : Option Doc :=
  if !isValidObjectId cid then none
  else store.find? fun r => r.id == cid

/-- An `update_complaint` payload: the `$set` effect of the caller's fields,
their key names (for the `updated` history entry), and the caller's explicit
`processingHistory`, if any. -/
structure UpdateData where
  fields : List String
  applySet : Doc → Doc
  historyGiven : Option (List HistEntry) := none

/-- `MongoOperations.update_complaint` against a list store: `False` for an
invalid id without touching the store; otherwise set `lastUpdated`, fetch the
current history when none was supplied, append an `updated` entry, `$set` on
the matched document, and report whether a document was modified. -/
def updateComplaint (store : List Doc) (cid : String) (ud : UpdateData)
    (now : Int) : Bool × List Doc :=
  if !isValidObjectId cid then (false, store)
  else
    let hist :=
      match ud.historyGiven with
      | some h => some h
      | none => (getComplaintById store cid).map fun r => r.processingHistory
    let keys := ud.fields ++ ["lastUpdated"] ++
      (if ud.historyGiven.isNone && hist.isSome then ["processingHistory"] else [])
    let entry : HistEntry :=
      { action := "updated", timestamp := now, userId := "system",
        detailFieldsUpdated := some keys }
    let setOne := fun (r : Doc) =>
      let r1 := { ud.applySet r with lastUpdated := now }
      match hist with
      | some h => { r1 with processingHistory := h ++ [entry] }
      | none => r1
    let store1 := updateFirst (fun r => r.id == cid) setOne store
    (decide (store1 ≠ store), store1)

/-! ## Claims -/

/-- C3: whichever store access fails during duplicate resolution — the exact
lookup, or the candidate query after a clean miss of the exact lookup —
`check_duplicate` returns `None` rather than propagating the exception. -/
theorem checkDuplicate_fail_open (cfg : CheckerConfig) (col : Collection)
    (now : Int) (c : Doc) :
    (∀ e, col.findOne (exactQueryPred cfg now c (generateContentHash c)) =
        .error e → checkDuplicate cfg col now c = none) ∧
    (∀ e, col.findOne (exactQueryPred cfg now c (generateContentHash c)) =
        .ok none →
      col.findSorted (similarQueryPred cfg now c) = .error e →
      checkDuplicate cfg col now c = none) := by
  constructor
  · intro e he
    simp [checkDuplicate, checkDuplicateE, checkExactDuplicate, he, bind, Except.bind]
  · intro e h1 h2
    simp [checkDuplicate, checkDuplicateE, checkExactDuplicate, checkSimilarDuplicate,
      h1, h2, bind, Except.bind, pure, Except.pure]

/-- C3 witness: a collection whose every access fails yields no duplicate. -/
theorem checkDuplicate_fail_open_witness :
    checkDuplicate {} ⟨fun _ => .error "down", fun _ => .error "down"⟩ 0 {} = none :=
  (checkDuplicate_fail_open {} ⟨fun _ => .error "down", fun _ => .error "down"⟩ 0 {}).1
    "down" rfl

/-- C7: in the similar-check loop, a candidate scoring exactly the configured
threshold is accepted (its id is returned), and a candidate scoring strictly
below the threshold is not accepted (alone, the loop reports no duplicate). -/
theorem similarLoop_threshold_boundary (cfg : CheckerConfig) (c cand : Doc)
    (rest : List Doc) :
    (calcTextSimilarity c cand = cfg.similarityThreshold →
      (similarLoop cfg c (cand :: rest)).1 = some cand.id) ∧
    (calcTextSimilarity c cand < cfg.similarityThreshold →
      (similarLoop cfg c [cand]).1 = none) := by
  constructor
  · intro h
    simp [similarLoop, h]
  · intro h
    simp [similarLoop, not_le.mpr h]

/-- C7 witness: with the threshold set to the exact score of a concrete
candidate pair the candidate is returned; with a strictly larger threshold it
is not. -/
theorem similarLoop_threshold_boundary_witness :
    (similarLoop { similarityThreshold := mkRat 517 570 }
      { subject := "Broken item", description := "Hi, please help -- item broken" }
      [{ id := "c1", subject := "BROKEN ITEM  ", description := "Item broken, thanks" }]).1 =
      some "c1" ∧
    (similarLoop { similarityThreshold := 1 }
      { subject := "Broken item", description := "Hi, please help -- item broken" }
      [{ id := "c1", subject := "BROKEN ITEM  ", description := "Item broken, thanks" }]).1 =
      none := by
  constructor
  · exact (similarLoop_threshold_boundary { similarityThreshold := mkRat 517 570 }
      { subject := "Broken item", description := "Hi, please help -- item broken" }
      { id := "c1", subject := "BROKEN ITEM  ", description := "Item broken, thanks" } []).1
      (by with_unfolding_all decide)
  · exact (similarLoop_threshold_boundary { similarityThreshold := 1 }
      { subject := "Broken item", description := "Hi, please help -- item broken" }
      { id := "c1", subject := "BROKEN ITEM  ", description := "Item broken, thanks" } []).2
      (by with_unfolding_all decide)

/-- C2: the similar-check loop returns the id of the first candidate, in the
given (newest-first) order, whose score reaches the threshold; in particular,
of two candidates both clearing the threshold the earlier (more recent) one is
returned even when the later (older) one scores strictly higher. -/
theorem similarLoop_recency_first (cfg : CheckerConfig) (c : Doc) :
    (∀ before cand after, (∀ x ∈ before, calcTextSimilarity c x < cfg.similarityThreshold) →
      cfg.similarityThreshold ≤ calcTextSimilarity c cand →
      (similarLoop cfg c (before ++ cand :: after)).1 = some cand.id) ∧
    (∀ c1 c2 : Doc, cfg.similarityThreshold ≤ calcTextSimilarity c c1 →
      cfg.similarityThreshold ≤ calcTextSimilarity c c2 →
      calcTextSimilarity c c1 < calcTextSimilarity c c2 →
      (similarLoop cfg c [c1, c2]).1 = some c1.id) := by
  have main : ∀ before cand after,
      (∀ x ∈ before, calcTextSimilarity c x < cfg.similarityThreshold) →
      cfg.similarityThreshold ≤ calcTextSimilarity c cand →
      (similarLoop cfg c (before ++ cand :: after)).1 = some cand.id := by
    intro before
    induction before with
    | nil =>
      intro cand after _ hc
      simp [similarLoop, hc]
    | cons b bs ih =>
      intro cand after hlt hc
      have hb : calcTextSimilarity c b < cfg.similarityThreshold :=
        hlt b (by simp)
      simp only [List.cons_append, similarLoop, not_le.mpr hb, if_neg]
      exact ih cand after (fun x hx => hlt x (by simp [hx])) hc
  refine ⟨main, ?_⟩
  intro c1 c2 h1 _ _
  exact main [] c1 [c2] (by simp) h1

/-- C2 witness: with threshold 0 every candidate qualifies and the first of
two concrete candidates is returned, also when the second scores higher. -/
theorem similarLoop_recency_first_witness :
    (similarLoop { similarityThreshold := 0 } { description := "tide" }
      [{ id := "recent", description := "xyzq" }, { id := "older", description := "tide" }]).1 =
      some "recent" := by
  exact (similarLoop_recency_first { similarityThreshold := 0 }
    { description := "tide" }).2
    { id := "recent", description := "xyzq" } { id := "older", description := "tide" }
    (by with_unfolding_all decide) (by with_unfolding_all decide)
    (by with_unfolding_all decide)

/-- C4: the noise alternation lists `thanks?` before `thank you`, so on the
input `"thank you"` the regex engine commits to the match `"thank"` (the
optional `s` fails, the word boundary before the space succeeds) and the
`thank you` alternative is unreachable: `_normalize_text("thank you")`
returns `"you"`, not the empty string the whole-phrase removal would give. -/
theorem normalizeText_thank_you_left_behind :
    normalizeText (some "thank you") = "you" ∧
      normalizeText (some "thank you") ≠ "" := by
  with_unfolding_all decide

/-- C5 counterexample: `SequenceMatcher.ratio` is order-dependent, and the
similarity inherits it.  With equal (empty) subjects and descriptions
`"tide"` / `"diet"`: one direction finds only one matching character
(score `2/8 + 0.1`), the swapped direction finds two (`4/8 + 0.1`). -/
theorem calcTextSimilarity_not_symm :
    calcTextSimilarity { subject := "", description := "tide" }
        { subject := "", description := "diet" } ≠
      calcTextSimilarity { subject := "", description := "diet" }
        { subject := "", description := "tide" } := by
  with_unfolding_all decide

/-- C5 amended: the subject-bonus check is symmetric, and the similarity is
symmetric whenever the underlying sequence-matcher score of the two normalized
comparison strings is itself symmetric — but not in general, since the
matcher's score is order-dependent. -/
theorem calcTextSimilarity_symm_of_ratio_symm (c1 c2 : Doc)
    (h : ratioQ (normStr (c1.subject ++ " " ++ c1.description)).data
           (normStr (c2.subject ++ " " ++ c2.description)).data =
         ratioQ (normStr (c2.subject ++ " " ++ c2.description)).data
           (normStr (c1.subject ++ " " ++ c1.description)).data) :
    calcTextSimilarity c1 c2 = calcTextSimilarity c2 c1 := by
  simp only [calcTextSimilarity]
  rw [h]
  by_cases hs : lowerStrip c1.subject = lowerStrip c2.subject
  · rw [if_pos hs, if_pos hs.symm]
  · rw [if_neg hs, if_neg fun hh => hs hh.symm]

/-- C5 amended witness: two records that normalize to the same comparison
string have a symmetric matcher score, hence a symmetric similarity. -/
theorem calcTextSimilarity_symm_witness :
    calcTextSimilarity { subject := "Hi", description := "x" }
        { subject := "hi", description := " x " } =
      calcTextSimilarity { subject := "hi", description := " x " }
        { subject := "Hi", description := "x" } :=
  calcTextSimilarity_symm_of_ratio_symm
    { subject := "Hi", description := "x" } { subject := "hi", description := " x " }
    (by with_unfolding_all decide)

/-- C9: the duplicate statistics report a total equal to the store size, a
duplicate count equal to the number of records flagged duplicate, a rate of
`round(D/N*100, 2)` when the total `N` is positive, and a rate of `0` (no
division) when the store is empty. -/
theorem getDuplicateStats_rate (cfg : CheckerConfig) (store : List Doc) :
    (getDuplicateStats cfg store).totalComplaints = store.length ∧
    (getDuplicateStats cfg store).duplicates =
      (store.filter fun r => r.isDuplicate == some true).length ∧
    (store.length = 0 → (getDuplicateStats cfg store).duplicateRate = 0) ∧
    (0 < store.length →
      (getDuplicateStats cfg store).duplicateRate =
        round2 (((store.filter fun r => r.isDuplicate == some true).length : ℚ) /
          (store.length : ℚ) * 100)) := by
  refine ⟨rfl, rfl, ?_, ?_⟩
  · intro h
    simp [getDuplicateStats, h]
  · intro h
    simp [getDuplicateStats, h]

/-- C9 witness: the empty store reports rate `0`; one duplicate among two
records reports `round(50.0, 2)`. -/
theorem getDuplicateStats_rate_witness :
    (getDuplicateStats {} []).duplicateRate = 0 ∧
    (getDuplicateStats {} [{ isDuplicate := some true }, { isDuplicate := some false }]).duplicateRate =
      round2 ((1 : ℚ) / 2 * 100) := by
  constructor
  · exact (getDuplicateStats_rate {} []).2.2.1 rfl
  · have := (getDuplicateStats_rate {}
      [{ isDuplicate := some true }, { isDuplicate := some false }]).2.2.2
      (by decide)
    simpa using this

/-- C10: for an identifier that is not a valid `ObjectId`, `update_complaint`
reports `False` with the store unchanged and `get_complaint_by_id` reports
`None`; neither outcome depends on the store's contents (no access is made)
and no exception escapes (both are total). -/
theorem invalid_objectid_rejected (store store2 : List Doc) (cid : String)
    (ud : UpdateData) (now : Int) (h : isValidObjectId cid = false) :
    updateComplaint store cid ud now = (false, store) ∧
    getComplaintById store cid = none ∧
    (updateComplaint store cid ud now).1 = (updateComplaint store2 cid ud now).1 ∧
    getComplaintById store cid = getComplaintById store2 cid := by
  refine ⟨?_, ?_, ?_, ?_⟩
  · simp [updateComplaint, h]
  · simp [getComplaintById, h]
  · simp [updateComplaint, h]
  · simp [getComplaintById, h]

/-- C10 witness: the malformed id `"zzz"` is rejected by both operations on a
concrete non-empty store. -/
theorem invalid_objectid_rejected_witness :
    updateComplaint [{ id := "zzz" }] "zzz" { fields := [], applySet := id } 5 =
      (false, [{ id := "zzz" }]) ∧
    getComplaintById [{ id := "zzz" }] "zzz" = none := by
  have := invalid_objectid_rejected [{ id := "zzz" }] [] "zzz"
    { fields := [], applySet := id } 5 (by decide)
  exact ⟨this.1, this.2.1⟩

theorem hexDigitChar_mem (n : Nat) : hexDigitChar n ∈ "0123456789abcdef".data := by
  unfold hexDigitChar
  rcases Nat.lt_or_ge n 16 with h | h
  · interval_cases n <;> decide
  · rw [List.getD_eq_default]
    · decide
    · simpa using h

theorem byteHex_flatten_length (bs : List Nat) :
    ((bs.map byteHex).flatten).length = 2 * bs.length := by
  induction bs with
  | nil => simp
  | cons b tl ih =>
    simp [byteHex, ih]
    omega

theorem md5Bytes_length (msg : List Nat) : (md5Bytes msg).length = 16 := by
  simp [md5Bytes, leBytes]

theorem md5Hex_length (s : String) : (md5Hex s).length = 32 := by
  have : (md5Hex s).length = ((md5Bytes (utf8Bytes s)).map byteHex).flatten.length := rfl
  rw [this, byteHex_flatten_length, md5Bytes_length]

theorem md5Hex_chars {s : String} {ch : Char} (h : ch ∈ (md5Hex s).data) :
    ch ∈ "0123456789abcdef".data := by
  have h2 : ch ∈ ((md5Bytes (utf8Bytes s)).map byteHex).flatten := h
  rw [List.mem_flatten] at h2
  obtain ⟨l, hl, hch⟩ := h2
  rw [List.mem_map] at hl
  obtain ⟨b, _, rfl⟩ := hl
  simp only [byteHex, List.mem_cons, List.mem_singleton] at hch
  rcases hch with h1 | h1 | h1
  · exact h1 ▸ hexDigitChar_mem _
  · exact h1 ▸ hexDigitChar_mem _
  · cases h1

/-- C6: fingerprinting is a pure function (hashing twice gives the same
digest), the digest is always 32 lowercase hexadecimal characters, and
replacing the email or the subject by any variant with the same
lowercased-and-stripped form — in particular a case change or a change of
leading/trailing whitespace — leaves the digest unchanged. -/
theorem generateContentHash_stable (c : Doc) (email2 subj2 : String)
    (he : lowerStrip email2 = lowerStrip c.customerEmail)
    (hs : lowerStrip subj2 = lowerStrip c.subject) :
    generateContentHash c = generateContentHash c ∧
    (generateContentHash c).length = 32 ∧
    (∀ ch ∈ (generateContentHash c).data, ch ∈ "0123456789abcdef".data) ∧
    generateContentHash { c with customerEmail := email2, subject := subj2 } =
      generateContentHash c := by
  refine ⟨rfl, md5Hex_length _, fun ch hch => md5Hex_chars hch, ?_⟩
  show md5Hex (lowerStrip email2 ++ "|" ++ lowerStrip subj2 ++ "|" ++
      normStr c.description) = _
  rw [he, hs]
  rfl

/-- Concrete fixture: a new complaint (spec Scenario A flavour). -/
def fixNew : Doc :=
  { customerEmail := " A@x.com"
    subject := " broken item"
    description := "It arrived broken" }

/-- The same complaint with only case and surrounding whitespace of the email
and subject changed. -/
def fixNewVariant : Doc :=
  { customerEmail := "a@x.COM"
    subject := "BROKEN ITEM "
    description := "It arrived broken" }

/-- C6 witness: changing only case and surrounding whitespace of a concrete
email and subject leaves the 32-character digest unchanged. -/
theorem generateContentHash_stable_witness :
    generateContentHash fixNewVariant = generateContentHash fixNew ∧
    (generateContentHash fixNew).length = 32 := by
  have h := generateContentHash_stable fixNew "a@x.COM" "BROKEN ITEM "
    (by with_unfolding_all decide) (by with_unfolding_all decide)
  exact ⟨h.2.2.2, h.2.1⟩

theorem find?_isSome_of_mem {α : Type} {p : α → Bool} {l : List α} {x : α}
    (hx : x ∈ l) (hpx : p x = true) : (l.find? p).isSome := by
  induction l with
  | nil => cases hx
  | cons y ys ih =>
    rcases List.mem_cons.mp hx with rfl | htail
    · simp [List.find?, hpx]
    · cases hy : p y
      · simp only [List.find?, hy]
        exact ih htail
      · simp [List.find?, hy]

/-- C1: whenever the store holds a record with the new complaint's customer
email and content fingerprint created inside the trailing window (i.e. a
record the exact-duplicate query matches), `check_duplicate` returns the id of
the record `find_one` retrieves — which satisfies that query — and
`_calculate_text_similarity` is invoked zero times. -/
theorem checkDuplicate_exact_first (cfg : CheckerConfig) (store : List Doc)
    (now : Int) (c : Doc)
    (h : ∃ r ∈ store, exactQueryPred cfg now c (generateContentHash c) r = true) :
    ∃ r, store.find? (exactQueryPred cfg now c (generateContentHash c)) = some r ∧
      exactQueryPred cfg now c (generateContentHash c) r = true ∧
      checkDuplicate cfg (listCollection store) now c = some r.id ∧
      simCallCount cfg (listCollection store) now c = 0 := by
  obtain ⟨r0, hr0, hp0⟩ := h
  obtain ⟨r, hr⟩ := Option.isSome_iff_exists.mp (find?_isSome_of_mem hr0 hp0)
  refine ⟨r, hr, List.find?_some hr, ?_, ?_⟩
  · simp [checkDuplicate, checkDuplicateE, checkExactDuplicate, listCollection,
      hr, bind, Except.bind, pure, Except.pure]
  · simp [simCallCount, checkDuplicateE, checkExactDuplicate, listCollection,
      hr, bind, Except.bind, pure, Except.pure]

/-- Concrete fixture: a stored original whose fingerprint equals `fixNew`'s
and that already carries three related complaints. -/
def fixOrig : Doc :=
  { id := "aaaaaaaaaaaaaaaaaaaaaaaa"
    customerEmail := " A@x.com"
    subject := "Broken item"
    description := "It arrived broken"
    createdDate := 98
    contentHash := generateContentHash fixNew
    relatedComplaints := ["r1", "r2", "r3"] }

/-- C1 witness: on a one-record store matching `fixNew`'s email and
fingerprint two days back, resolution returns that record's id with zero
similarity invocations. -/
theorem checkDuplicate_exact_first_witness :
    checkDuplicate {} (listCollection [fixOrig]) 100 fixNew =
      some "aaaaaaaaaaaaaaaaaaaaaaaa" ∧
    simCallCount {} (listCollection [fixOrig]) 100 fixNew = 0 := by
  obtain ⟨r, hr, _, hres, hcount⟩ := checkDuplicate_exact_first {} [fixOrig] 100 fixNew
    ⟨fixOrig, by simp, by with_unfolding_all decide⟩
  have hr2 : [fixOrig].find?
      (exactQueryPred {} 100 fixNew (generateContentHash fixNew)) = some fixOrig := by
    with_unfolding_all decide
  rw [hr2] at hr
  cases hr
  exact ⟨hres, hcount⟩

theorem updateFirst_keeps {p : Doc → Bool} {f : Doc → Doc} {l : List Doc} {x : Doc}
    (hx : x ∈ l) (hpx : p x = false) : x ∈ updateFirst p f l := by
  induction l with
  | nil => cases hx
  | cons y ys ih =>
    rcases List.mem_cons.mp hx with rfl | htail
    · simp [updateFirst, hpx]
    · cases hy : p y
      · simp only [updateFirst, hy, Bool.false_eq_true, if_false]
        exact List.mem_cons_of_mem y (ih htail)
      · simp only [updateFirst, hy, if_true]
        exact List.mem_cons_of_mem (f y) htail

theorem updateFirst_hits {p : Doc → Bool} {f : Doc → Doc} {l : List Doc} {x : Doc}
    (hx : x ∈ l) (hpx : p x = true)
    (huniq : ∀ y ∈ l, p y = true → y = x) : f x ∈ updateFirst p f l := by
  induction l with
  | nil => cases hx
  | cons y ys ih =>
    cases hy : p y
    · rcases List.mem_cons.mp hx with rfl | htail
      · rw [hpx] at hy; cases hy
      · simp only [updateFirst, hy, Bool.false_eq_true, if_false]
        exact List.mem_cons_of_mem y
          (ih htail fun z hz hpz => huniq z (List.mem_cons_of_mem y hz) hpz)
    · have hyx : y = x := huniq y (List.mem_cons_self y ys) hy
      subst hyx
      simp [updateFirst, hy]

/-- C8: when resolution reports an original `O` (the unique store record with
that id), `create_complaint` returns the fresh id, persists the new record
with `isDuplicate = true`, `originalComplaintId` pointing at `O` and status
`"duplicate"`, and updates `O`: the new id is `$addToSet`-inserted into its
`relatedComplaints` (a no-op when present, an append when absent, never a
second copy), its `lastUpdated` is refreshed, and exactly one
`duplicate_linked` history entry referencing the new id is appended. -/
theorem createComplaint_duplicate_links (cfg : CheckerConfig) (store : List Doc)
    (c : Doc) (newId : String) (now : Int) (oid : String) (O : Doc)
    (hdup : checkDuplicate cfg (listCollection store) now
      { c with contentHash := generateContentHash c } = some oid)
    (hO : O ∈ store) (hOid : O.id = oid)
    (hfirst : ∀ y ∈ store, y.id = oid → y = O)
    (hne : oid ≠ newId) :
    (createComplaint cfg store c newId now).1 = newId ∧
    (∃ newRec ∈ (createComplaint cfg store c newId now).2,
      newRec.id = newId ∧ newRec.isDuplicate = some true ∧
      newRec.originalComplaintId = some oid ∧ newRec.status = "duplicate") ∧
    (∃ O2 ∈ (createComplaint cfg store c newId now).2,
      O2.id = oid ∧
      O2.relatedComplaints = addToSet O.relatedComplaints newId ∧
      (newId ∈ O.relatedComplaints → O2.relatedComplaints = O.relatedComplaints) ∧
      (newId ∉ O.relatedComplaints →
        O2.relatedComplaints = O.relatedComplaints ++ [newId]) ∧
      (O.relatedComplaints.count newId ≤ 1 →
        O2.relatedComplaints.count newId = 1) ∧
      O2.lastUpdated = now ∧
      O2.processingHistory = O.processingHistory ++ [dupLinkedEntry newId now]) := by
  have hres : createComplaint cfg store c newId now =
      (newId, linkDuplicateComplaints
        (store ++ [insertedDoc { c with contentHash := generateContentHash c }
          (some oid) newId now]) oid newId now) := by
    simp only [createComplaint, hdup]
  rw [hres]
  have hndid : (insertedDoc { c with contentHash := generateContentHash c }
      (some oid) newId now).id = newId := rfl
  refine ⟨rfl, ?_, ?_⟩
  · refine ⟨insertedDoc { c with contentHash := generateContentHash c }
      (some oid) newId now, ?_, rfl, rfl, rfl, rfl⟩
    simp only [linkDuplicateComplaints]
    refine updateFirst_keeps (by simp) ?_
    rw [hndid]
    exact beq_eq_false_iff_ne.mpr fun hh => hne hh.symm
  · simp only [linkDuplicateComplaints]
    have huniq : ∀ y ∈ store ++ [insertedDoc
        { c with contentHash := generateContentHash c } (some oid) newId now],
        (y.id == oid) = true → y = O := by
      intro y hy hpy
      have hyid : y.id = oid := eq_of_beq hpy
      rcases List.mem_append.mp hy with hy1 | hy2
      · exact hfirst y hy1 hyid
      · have hynd : y = insertedDoc { c with contentHash := generateContentHash c }
            (some oid) newId now := by simpa using hy2
        rw [hynd, hndid] at hyid
        exact absurd hyid.symm hne
    refine ⟨_, updateFirst_hits (List.mem_append_left _ hO)
      (beq_iff_eq.mpr hOid) huniq, hOid, rfl, ?_, ?_, ?_, rfl, rfl⟩
    · intro hm
      simp [addToSet, hm]
    · intro hm
      simp [addToSet, hm]
    · intro hle
      by_cases hm : newId ∈ O.relatedComplaints
      · have hpos : 0 < O.relatedComplaints.count newId := List.count_pos_iff.mpr hm
        simp only [addToSet, hm, if_pos]
        omega
      · have hz : O.relatedComplaints.count newId = 0 := List.count_eq_zero.mpr hm
        simp [addToSet, hm, List.count_append, hz]

/-- C8 witness: linking against an original that already has three related
complaints appends the new id as a fourth entry and appends exactly one
`duplicate_linked` history entry. -/
theorem createComplaint_duplicate_links_witness :
    (createComplaint {} [fixOrig] fixNew "bbbbbbbbbbbbbbbbbbbbbbbb" 100).1 =
      "bbbbbbbbbbbbbbbbbbbbbbbb" ∧
    (∃ O2 ∈ (createComplaint {} [fixOrig] fixNew "bbbbbbbbbbbbbbbbbbbbbbbb" 100).2,
      O2.id = "aaaaaaaaaaaaaaaaaaaaaaaa" ∧
      O2.relatedComplaints = ["r1", "r2", "r3", "bbbbbbbbbbbbbbbbbbbbbbbb"] ∧
      O2.processingHistory = [dupLinkedEntry "bbbbbbbbbbbbbbbbbbbbbbbb" 100]) := by
  obtain ⟨h1, _, O2, hmem, hid, _, _, hnm, _, _, hhist⟩ :=
    createComplaint_duplicate_links {} [fixOrig] fixNew "bbbbbbbbbbbbbbbbbbbbbbbb" 100
      "aaaaaaaaaaaaaaaaaaaaaaaa" fixOrig
      (by with_unfolding_all decide) (by simp) rfl
      (by intro y hy _; simpa using hy) (by decide)
  refine ⟨h1, O2, hmem, hid, ?_, ?_⟩
  · exact (hnm (by decide)).trans rfl
  · exact hhist.trans rfl

end Dedup
